import Mathlib

/-!
Shallow embedding of the hn-comment-parser CLI (Go, `main.go`, the version
with the per-user cache directory, whose functions are `getComment`,
`getThreadFromAPI`, `fetchFromAPI`, `fetchFromFile`, `filterTextFromKeywords`,
`getCachedFile`, `fileExists`, `getComments` and `main`).

Modelling conventions:
- HN item identifiers travel as `float64` on the wire but are integral in
  every use; they are modelled as `Int` (the spec itself calls the float
  representation an accepted quirk).
- Go strings are Lean `String`s; `strings.ToLower` is modelled by the ASCII
  case map `Char.toLower` (every string in the program's tests and flags is
  ASCII).
- JSON is modelled at the level of JSON values (`Json` below); a file's
  content is `Option Json`, where `none` is an empty file — the state
  `os.Create` leaves a file in, on which `json.Decoder.Decode` fails with EOF.
- The network is a pair of oracles: `apiThread` for a GET decoded into
  `hnThread` and `apiComment` for a GET decoded into `hnComment`; `none`
  means the GET (or its decode) failed, which the program answers with
  `log.Fatalln`, modelled as the `Except.error ()` outcome.
- The nondeterministic completion order of the comment goroutines is an
  explicit parameter `order : List Nat`: position `i` of the result is the
  message of goroutine `order[i]`.
-/

/-- A JSON value, as far as the cache files of this program need. -/
inductive Json where
  | null : Json
  | bool (b : Bool) : Json
  | num (n : Int) : Json
  | str (s : String) : Json
  | arr (elems : List Json) : Json
  | obj (fields : List (String × Json)) : Json

/-- Go struct `hnThread` (`Kids []float64`, tag `kids`). -/
structure hnThread where
  Kids : List Int
deriving Repr, DecidableEq

/-- Go struct `hnComment` (`By string`, `ID float64`, `Parent float64`,
`Text string`, tags `by`, `id`, `parent`, `text`). -/
structure hnComment where
  By : String
  ID : Int
  Parent : Int
  Text : String
deriving Repr, DecidableEq, Inhabited

/-- `strings.ToLower`, restricted to the ASCII case map. -/
def goToLower (s : String) : String :=
  String.mk (s.data.map Char.toLower)

/-- `p` is a prefix of `s` (Boolean, by character equality). -/
def startsWithList : List Char → List Char → Bool
  | _, [] => true
  | [], _ :: _ => false
  | c :: s, p :: ps => (c == p) && startsWithList s ps

/-- `sub` occurs contiguously in `s` (Boolean). -/
def containsSub : List Char → List Char → Bool
  | _, [] => true
  | [], _ :: _ => false
  | c :: s, p :: ps => startsWithList (c :: s) (p :: ps) || containsSub s (p :: ps)

/-- Go `strings.Contains s sub`. -/
def goContains (s sub : String) : Bool :=
  containsSub s.data sub.data

/-- Go `strings.Split s " "`: split on every single space, keeping empty
fields. -/
def splitSpaceChars : List Char → List (List Char)
  | [] => [[]]
  | c :: rest =>
    if c == ' ' then [] :: splitSpaceChars rest
    else
      match splitSpaceChars rest with
      | [] => [[c]]
      | f :: fs => (c :: f) :: fs

/-- Go `strings.Split s " "` on `String`s. -/
def goSplitSpace (s : String) : List String :=
  (splitSpaceChars s.data).map String.mk

/-- `filterTextFromKeywords` of `main.go`: lower-case the text and return
true as soon as one keyword is contained in it. The keywords themselves are
used exactly as given (the source does not lower-case them). -/
def filterTextFromKeywords (keywords : List String) : String → Bool :=
  fun text =>
    let lowerText := goToLower text
    keywords.any (fun keyword => goContains lowerText keyword)

/-- The filter `main` selects: if the `-keywords` flag value is the empty
string the filter accepts everything, otherwise it is
`filterTextFromKeywords` over the space-split flag value. -/
def selectFilter (keywordsStr : String) : String → Bool :=
  if keywordsStr.length == 0 then fun _ => true
  else filterTextFromKeywords (goSplitSpace keywordsStr)

/-- The filtering loop of `main`: start from an empty slice and append each
comment whose text passes the filter. -/
def filterComments (filter : String → Bool) (comments : List hnComment) : List hnComment :=
  comments.foldl (fun acc c => if filter c.Text then acc ++ [c] else acc) []

/-- `html.UnescapeString`, restricted to the four basic named entities the
program's data exercises (`&amp;` `&lt;` `&gt;` `&quot;`); all other
characters pass through unchanged. -/
def htmlUnescapeChars : List Char → List Char
  | '&' :: 'a' :: 'm' :: 'p' :: ';' :: rest => '&' :: htmlUnescapeChars rest
  | '&' :: 'l' :: 't' :: ';' :: rest => '<' :: htmlUnescapeChars rest
  | '&' :: 'g' :: 't' :: ';' :: rest => '>' :: htmlUnescapeChars rest
  | '&' :: 'q' :: 'u' :: 'o' :: 't' :: ';' :: rest => '"' :: htmlUnescapeChars rest
  | c :: rest => c :: htmlUnescapeChars rest
  | [] => []

/-- `html.UnescapeString` on `String`s. -/
def htmlUnescapeStr (s : String) : String :=
  String.mk (htmlUnescapeChars s.data)

/-- `json.Encoder.Encode` of one `hnComment`: an object with the four tagged
fields. -/
def encodeComment (c : hnComment) : Json :=
  Json.obj [("by", Json.str c.By), ("id", Json.num c.ID),
            ("parent", Json.num c.Parent), ("text", Json.str c.Text)]

/-- `json.Encoder.Encode` of a `[]hnComment`: a JSON array. -/
def encodeComments (comments : List hnComment) : Json :=
  Json.arr (comments.map encodeComment)

/-- Field lookup of `encoding/json` decoding into a string field: missing
field leaves the zero value, a value of another type is a decode error. -/
def jsonGetStr (fields : List (String × Json)) (key : String) : Option String :=
  match fields.lookup key with
  | some (Json.str s) => some s
  | some _ => none
  | none => some ""

/-- Field lookup of `encoding/json` decoding into a numeric field. -/
def jsonGetNum (fields : List (String × Json)) (key : String) : Option Int :=
  match fields.lookup key with
  | some (Json.num n) => some n
  | some _ => none
  | none => some 0

/-- `encoding/json` decoding of one `hnComment` from a JSON value. -/
def decodeComment : Json → Option hnComment
  | Json.obj fields =>
    match jsonGetStr fields "by", jsonGetNum fields "id",
          jsonGetNum fields "parent", jsonGetStr fields "text" with
    | some by0, some id0, some parent0, some text0 =>
      some { By := by0, ID := id0, Parent := parent0, Text := text0 }
    | _, _, _, _ => none
  | _ => none

/-- `encoding/json` decoding of each element of a JSON array in turn. -/
def decodeCommentList : List Json → Option (List hnComment)
  | [] => some []
  | j :: js =>
    match decodeComment j, decodeCommentList js with
    | some c, some cs => some (c :: cs)
    | _, _ => none

/-- `encoding/json` decoding of a `[]hnComment` from a JSON value. -/
def decodeComments : Json → Option (List hnComment)
  | Json.arr elems => decodeCommentList elems
  | _ => none

/-- `fetchFromFile` of `main.go`: decode the open file's content as a
`[]hnComment`; an empty file (`none`) makes the decoder fail with EOF. -/
def fetchFromFile (content : Option Json) : Option (List hnComment) :=
  match content with
  | none => none
  | some j => decodeComments j

/-- `getComment` of `main.go` as seen through the channel: fetch the comment
from the API oracle, HTML-unescape its text, and send it; `none` is a fatal
fetch or decode failure inside the goroutine. -/
def getComment (apiComment : Int → Option hnComment) (id : Int) : Option hnComment :=
  (apiComment id).map (fun c => { c with Text := htmlUnescapeStr c.Text })

/-- The fan-out of `fetchFromAPI`: one `getComment` goroutine per kid;
`msgs[i]` is the message of the goroutine for `kids[i]`, and any goroutine
failing kills the process. -/
def fetchChildren (apiComment : Int → Option hnComment) : List Int → Option (List hnComment)
  | [] => some []
  | k :: ks =>
    match getComment apiComment k, fetchChildren apiComment ks with
    | some c, some cs => some (c :: cs)
    | _, _ => none

/-- The fan-in of `fetchFromAPI`: the receive loop collects the goroutines'
messages in completion order; position `i` of the result is the message of
goroutine `order[i]`. -/
def fanIn (msgs : List hnComment) (order : List Nat) : List hnComment :=
  order.map (fun i => msgs.getD i default)

/-- `fetchFromAPI` of `main.go`: fetch the thread, launch one goroutine per
kid, then receive exactly `len(kids)` messages. `none` is a fatal failure of
the thread fetch or of any child fetch. -/
def fetchFromAPI (apiThread : Int → Option hnThread) (apiComment : Int → Option hnComment)
    (threadID : Int) (order : List Nat) : Option (List hnComment) :=
  match apiThread threadID with
  | none => none
  | some thread =>
    match fetchChildren apiComment thread.Kids with
    | none => none
    | some msgs => some (fanIn msgs order)

/-- The on-disk state: file name to content; `none` content is a file that
exists but is empty (the state `os.Create` leaves it in). -/
abbrev Fs := List (String × Option Json)

/-- `fileExists` of `main.go` (`os.Stat` succeeding). -/
def fileExists (fs : Fs) (name : String) : Bool :=
  (fs.lookup name).isSome

/-- `os.Create`: truncate-or-create, leaving the file empty. -/
def fsCreate (fs : Fs) (name : String) : Fs :=
  (name, none) :: fs

/-- `json.Encoder.Encode` to a freshly created file: the file now holds the
encoded value. -/
def fsWrite (fs : Fs) (name : String) (content : Json) : Fs :=
  (name, some content) :: fs

/-- Content of a file, `none` if the file is absent or empty. -/
def fsGet (fs : Fs) (name : String) : Option Json :=
  (fs.lookup name).join

/-- The cache file path `getComments` builds:
`{home}/.cache/hn-article-parser/{threadID}.json`. -/
def cachePath (homeDir : String) (threadID : Int) : String :=
  homeDir ++ "/" ++ ".cache/hn-article-parser" ++ "/" ++ toString threadID ++ ".json"

/-- Outcome of one run of a program fragment: the final disk state and
either the produced comments or `()` for a `log.Fatalln` termination. -/
structure RunResult where
  fs : Fs
  outcome : Except Unit (List hnComment)

/-- `getComments` of `main.go`. On a cache hit it opens the cache file with
`os.Create` — truncating it — and then decodes the now-empty file; on a miss
it creates the cache file first, then fetches from the API and encodes into
it. `MkdirAll` of the cache directory touches no file and is not modelled. -/
def getComments (homeDir : String) (apiThread : Int → Option hnThread)
    (apiComment : Int → Option hnComment) (order : List Nat)
    (threadID : Int) (fs : Fs) : RunResult :=
  let cachedFileName := cachePath homeDir threadID
  if fileExists fs cachedFileName then
    let fs1 := fsCreate fs cachedFileName
    match fetchFromFile (fsGet fs1 cachedFileName) with
    | some comments => ⟨fs1, Except.ok comments⟩
    | none => ⟨fs1, Except.error ()⟩
  else
    let fs1 := fsCreate fs cachedFileName
    match fetchFromAPI apiThread apiComment threadID order with
    | some comments => ⟨fsWrite fs1 cachedFileName (encodeComments comments), Except.ok comments⟩
    | none => ⟨fs1, Except.error ()⟩

/-- Observable result of `main`'s output stage: the final disk state, what
was encoded to stdout (if anything), and whether the no-results notice was
logged. -/
structure OutState where
  fs : Fs
  stdoutJson : Option Json
  loggedNoResults : Bool

/-- The output stage of `main` (everything after `getComments`): pick the
destination — creating the out file now if one is named — build the filter
from the `-keywords` value, filter the comments, and encode to the
destination only when the filtered list is non-empty, logging the notice
otherwise. -/
def runOutput (outFileName : String) (keywordsStr : String)
    (comments : List hnComment) (fs : Fs) : OutState :=
  let fs1 := if outFileName == "" then fs else fsCreate fs outFileName
  let filter := selectFilter keywordsStr
  let filteredComments := filterComments filter comments
  if filteredComments.length > 0 then
    if outFileName == "" then
      ⟨fs1, some (encodeComments filteredComments), false⟩
    else
      ⟨fsWrite fs1 outFileName (encodeComments filteredComments), none, false⟩
  else
    ⟨fs1, none, true⟩

/-! ## Helper lemmas shared by the claim theorems -/

theorem containsSub_empty (s : List Char) : containsSub s [] = true := by
  cases s <;> rfl

theorem goContains_empty (s : String) : goContains s "" = true :=
  containsSub_empty s.data

theorem filterTextFromKeywords_iff (keywords : List String) (text : String) :
    filterTextFromKeywords keywords text = true ↔
      ∃ k ∈ keywords, goContains (goToLower text) k = true := by
  simp [filterTextFromKeywords, List.any_eq_true]

theorem filterComments_foldl (filter : String → Bool) (comments acc : List hnComment) :
    comments.foldl (fun acc c => if filter c.Text then acc ++ [c] else acc) acc
      = acc ++ comments.filter (fun c => filter c.Text) := by
  induction comments generalizing acc with
  | nil => simp
  | cons c cs ih =>
    rw [List.foldl_cons, List.filter_cons]
    by_cases h : filter c.Text
    · simp [h, ih]
    · simp [h, ih]

theorem filterComments_eq_filter (filter : String → Bool) (comments : List hnComment) :
    filterComments filter comments = comments.filter (fun c => filter c.Text) := by
  simpa using filterComments_foldl filter comments []

theorem fetchChildren_forall2 (apiComment : Int → Option hnComment) (ks : List Int)
    (msgs : List hnComment) (h : fetchChildren apiComment ks = some msgs) :
    List.Forall₂ (fun k c => getComment apiComment k = some c) ks msgs := by
  induction ks generalizing msgs with
  | nil =>
    rw [fetchChildren] at h
    cases h
    exact List.Forall₂.nil
  | cons k ks ih =>
    rw [fetchChildren] at h
    cases hc : getComment apiComment k with
    | none => rw [hc] at h; simp at h
    | some c =>
      cases hr : fetchChildren apiComment ks with
      | none => rw [hc, hr] at h; simp at h
      | some cs =>
        rw [hc, hr] at h
        simp only [Option.some.injEq] at h
        subst h
        exact List.Forall₂.cons hc (ih cs hr)

theorem forall2_mem_right {R : Int → hnComment → Prop} {ks : List Int}
    {ms : List hnComment} (h : List.Forall₂ R ks ms) {c : hnComment} (hc : c ∈ ms) :
    ∃ k ∈ ks, R k c := by
  induction h with
  | nil => cases hc
  | cons hR hrest ih =>
    cases hc with
    | head => exact ⟨_, List.mem_cons_self _ _, hR⟩
    | tail _ hmem =>
      obtain ⟨k, hk, hR2⟩ := ih hmem
      exact ⟨k, List.mem_cons_of_mem _ hk, hR2⟩

theorem map_getD_range (l : List hnComment) :
    (List.range l.length).map (fun i => l.getD i default) = l := by
  induction l with
  | nil => simp
  | cons a l ih =>
    rw [List.length_cons, List.range_succ_eq_map, List.map_cons, List.map_map]
    have hcomp : ((fun i => (a :: l).getD i default) ∘ Nat.succ)
        = fun i => l.getD i default := by
      funext i
      simp [List.getD_cons_succ]
    rw [List.getD_cons_zero, hcomp, ih]

theorem fanIn_perm (msgs : List hnComment) (order : List Nat)
    (h : order.Perm (List.range msgs.length)) :
    (fanIn msgs order).Perm msgs := by
  have h2 := h.map (fun i => msgs.getD i default)
  rw [map_getD_range] at h2
  exact h2

theorem decodeCommentList_encode (l : List hnComment) :
    decodeCommentList (l.map encodeComment) = some l := by
  induction l with
  | nil => rfl
  | cons c cs ih =>
    have hc : decodeComment (encodeComment c) = some c := by
      cases c
      rfl
    rw [List.map_cons, decodeCommentList, hc, ih]

/-! ## Concrete inputs used by the claim theorems -/

/-- A cached comment for thread 42. -/
def c1Comment : hnComment := { By := "ann", ID := 7, Parent := 42, Text := "hi" }

/-- A disk state whose cache entry for thread 42 is populated and decodable. -/
def c1Fs : Fs := [(cachePath "/home/u" 42, some (encodeComments [c1Comment]))]

/-- A thread oracle knowing thread 42 with the single kid 1001. -/
def c3ApiThread : Int → Option hnThread :=
  fun i => if i = 42 then some { Kids := [1001] } else none

/-- A comment oracle on which every child fetch fails. -/
def c3ApiComment : Int → Option hnComment := fun _ => none

/-- A thread oracle knowing thread 5 with kids 1 and 2. -/
def c4ApiThread : Int → Option hnThread :=
  fun i => if i = 5 then some { Kids := [1, 2] } else none

/-- A comment oracle answering for kids 1 and 2. -/
def c4ApiComment : Int → Option hnComment :=
  fun i =>
    if i = 1 then some { By := "u1", ID := 1, Parent := 5, Text := "t1" }
    else if i = 2 then some { By := "u2", ID := 2, Parent := 5, Text := "t2" } else none

/-- The channel messages of the two goroutines of `c4ApiThread`'s thread. -/
def c4Msgs : List hnComment :=
  [{ By := "u1", ID := 1, Parent := 5, Text := "t1" },
   { By := "u2", ID := 2, Parent := 5, Text := "t2" }]

/-- The thread oracle of the spec scenario: thread 9996333 with kids
1001 and 1002. -/
def c6ApiThread : Int → Option hnThread :=
  fun i => if i = 9996333 then some { Kids := [1001, 1002] } else none

/-- The comment oracle of the spec scenario: comment 1001 carries the
HTML-escaped wire text. -/
def c6ApiComment : Int → Option hnComment :=
  fun i =>
    if i = 1001 then some { By := "alice", ID := 1001, Parent := 9996333, Text := "I &amp; you" }
    else if i = 1002 then some { By := "bob", ID := 1002, Parent := 9996333, Text := "hello" }
    else none

/-- The channel messages of the scenario's two goroutines, texts already
unescaped by `getComment`. -/
def c6Msgs : List hnComment :=
  [{ By := "alice", ID := 1001, Parent := 9996333, Text := "I & you" },
   { By := "bob", ID := 1002, Parent := 9996333, Text := "hello" }]

/-- A comment whose text matches no keyword of the C5 scenario. -/
def c5Comment : hnComment := { By := "a", ID := 2001, Parent := 9, Text := "hello world" }

/-! ## The claims -/

/-- C1. The claim says a populated cache entry makes `getComments` return
the cached list unchanged with no network fetch. The code instead opens the
cache file with `os.Create`, truncating it, and then fails to JSON-decode
the now-empty file, terminating the process: for every network oracle and
completion order (so in particular with no network involvement), on a disk
whose entry for thread 42 decodes to `[c1Comment]`, the run ends in the
fatal outcome and leaves the cache file empty. -/
theorem claim_c1_cache_hit_truncates_and_dies (apiThread : Int → Option hnThread)
    (apiComment : Int → Option hnComment) (order : List Nat) :
    fetchFromFile (fsGet c1Fs (cachePath "/home/u" 42)) = some [c1Comment] ∧
    (getComments "/home/u" apiThread apiComment order 42 c1Fs).outcome = Except.error () ∧
    fsGet (getComments "/home/u" apiThread apiComment order 42 c1Fs).fs
        (cachePath "/home/u" 42) = none :=
  ⟨rfl, rfl, rfl⟩

/-- C2, counterexample. The claim says matching lower-cases both the text
and the keyword; the code lower-cases only the text, so keyword "A" does
not match text "a" although the lower-cased text contains the lower-cased
keyword. -/
theorem claim_c2_counterexample :
    filterTextFromKeywords ["A"] "a" = false ∧
    goContains (goToLower "a") (goToLower "A") = true := by
  decide

/-- C2, amended. For every non-empty keyword list the filter returns true
iff some keyword — taken verbatim, not lower-cased — is contained in the
lower-cased text. -/
theorem claim_c2_keyword_taken_verbatim (keywords : List String) (text : String)
    (_hK : keywords ≠ []) :
    filterTextFromKeywords keywords text = true ↔
      ∃ k ∈ keywords, goContains (goToLower text) k = true :=
  filterTextFromKeywords_iff keywords text

/-- C2, witness: the amended claim at keywords `["b"]` and text `"ABc"`. -/
theorem claim_c2_witness :
    (["b"] ≠ ([] : List String)) ∧
    (filterTextFromKeywords ["b"] "ABc" = true ↔
      ∃ k ∈ ["b"], goContains (goToLower "ABc") k = true) :=
  ⟨by decide, claim_c2_keyword_taken_verbatim ["b"] "ABc" (by decide)⟩

/-- C3. The claim says a failed child fetch leaves the cache entry absent or
unchanged. The code creates the cache file before fetching, so when the
child fetch of kid 1001 fails and the process terminates, an (empty) cache
entry for thread 42 exists where none existed before. -/
theorem claim_c3_failed_fetch_leaves_cache_entry :
    fileExists ([] : Fs) (cachePath "/home/u" 42) = false ∧
    (getComments "/home/u" c3ApiThread c3ApiComment [] 42 []).outcome = Except.error () ∧
    fileExists (getComments "/home/u" c3ApiThread c3ApiComment [] 42 []).fs
        (cachePath "/home/u" 42) = true :=
  ⟨rfl, rfl, rfl⟩

/-- C4. Fan-in completeness: when the thread fetch yields `thread.Kids` and
no child fetch fails (the goroutines' messages are `msgs`), `fetchFromAPI`
succeeds and returns, for any completion order, exactly
`thread.Kids.length` comments that are a permutation of the messages — one
message per child identifier, no drops, no duplicates. -/
theorem claim_c4_fan_in_completeness (apiThread : Int → Option hnThread)
    (apiComment : Int → Option hnComment) (tid : Int) (thread : hnThread)
    (msgs : List hnComment) (order : List Nat)
    (hth : apiThread tid = some thread)
    (hch : fetchChildren apiComment thread.Kids = some msgs)
    (hord : order.Perm (List.range thread.Kids.length)) :
    fetchFromAPI apiThread apiComment tid order = some (fanIn msgs order) ∧
    (fanIn msgs order).length = thread.Kids.length ∧
    (fanIn msgs order).Perm msgs ∧
    List.Forall₂ (fun k c => getComment apiComment k = some c) thread.Kids msgs := by
  have hlen : msgs.length = thread.Kids.length :=
    (fetchChildren_forall2 apiComment thread.Kids msgs hch).length_eq.symm
  refine ⟨?_, ?_, ?_, fetchChildren_forall2 apiComment thread.Kids msgs hch⟩
  · simp [fetchFromAPI, hth, hch]
  · simp [fanIn, hord.length_eq]
  · exact fanIn_perm msgs order (by rw [hlen]; exact hord)

/-- C4, witness: thread 5 with kids 1 and 2, both fetches succeeding, read
off in completion order `[1, 0]`. -/
theorem claim_c4_witness :
    (c4ApiThread 5 = some { Kids := [1, 2] }) ∧
    (fetchChildren c4ApiComment ({ Kids := [1, 2] } : hnThread).Kids = some c4Msgs) ∧
    ([1, 0].Perm (List.range ({ Kids := [1, 2] } : hnThread).Kids.length)) ∧
    (fetchFromAPI c4ApiThread c4ApiComment 5 [1, 0] = some (fanIn c4Msgs [1, 0]) ∧
     (fanIn c4Msgs [1, 0]).length = ({ Kids := [1, 2] } : hnThread).Kids.length ∧
     (fanIn c4Msgs [1, 0]).Perm c4Msgs ∧
     List.Forall₂ (fun k c => getComment c4ApiComment k = some c)
       ({ Kids := [1, 2] } : hnThread).Kids c4Msgs) :=
  ⟨rfl, rfl, by decide,
   claim_c4_fan_in_completeness c4ApiThread c4ApiComment 5 { Kids := [1, 2] }
     c4Msgs [1, 0] rfl rfl (by decide)⟩

/-- C5, counterexample. The claim says an empty filtered result means no
output file is written. In the scenario (one comment "hello world", keyword
"xyz", destination file "out.json") nothing is encoded and the notice is
logged, but the output file nevertheless exists afterwards, because `main`
creates it with `os.Create` before filtering. -/
theorem claim_c5_counterexample :
    (runOutput "out.json" "xyz" [c5Comment] []).stdoutJson = none ∧
    (runOutput "out.json" "xyz" [c5Comment] []).loggedNoResults = true ∧
    fileExists (runOutput "out.json" "xyz" [c5Comment] []).fs "out.json" = true :=
  ⟨rfl, rfl, rfl⟩

/-- C5, amended. When the filtered list is empty, nothing is encoded to the
destination and the no-results notice is logged; a file destination is
nevertheless created (empty) at startup, so after the run the named output
file exists but holds no content. -/
theorem claim_c5_empty_result_no_encode (outFileName keywordsStr : String)
    (comments : List hnComment) (fs : Fs)
    (hempty : filterComments (selectFilter keywordsStr) comments = []) :
    (runOutput outFileName keywordsStr comments fs).stdoutJson = none ∧
    (runOutput outFileName keywordsStr comments fs).loggedNoResults = true ∧
    (outFileName = "" → (runOutput outFileName keywordsStr comments fs).fs = fs) ∧
    (outFileName ≠ "" →
      fileExists (runOutput outFileName keywordsStr comments fs).fs outFileName = true ∧
      fsGet (runOutput outFileName keywordsStr comments fs).fs outFileName = none) := by
  have hrun : runOutput outFileName keywordsStr comments fs =
      ⟨if outFileName == "" then fs else fsCreate fs outFileName, none, true⟩ := by
    simp only [runOutput]
    rw [hempty]
    simp
  refine ⟨by rw [hrun], by rw [hrun], ?_, ?_⟩
  · intro he
    rw [hrun]
    simp [he]
  · intro hne
    have hbe : (outFileName == "") = false := by
      simpa using hne
    rw [hrun]
    simp [hbe, fileExists, fsCreate, fsGet, List.lookup]

/-- C5, witness: the amended claim at destination "o.json", keyword "qq"
and one non-matching comment. -/
theorem claim_c5_witness :
    (filterComments (selectFilter "qq") [{ By := "b", ID := 3, Parent := 4, Text := "abc" }]
      = []) ∧
    ((runOutput "o.json" "qq" [{ By := "b", ID := 3, Parent := 4, Text := "abc" }] []).stdoutJson
        = none ∧
     (runOutput "o.json" "qq" [{ By := "b", ID := 3, Parent := 4, Text := "abc" }] []).loggedNoResults
        = true ∧
     (("o.json" : String) = "" →
       (runOutput "o.json" "qq" [{ By := "b", ID := 3, Parent := 4, Text := "abc" }] []).fs = []) ∧
     (("o.json" : String) ≠ "" →
       fileExists (runOutput "o.json" "qq"
           [{ By := "b", ID := 3, Parent := 4, Text := "abc" }] []).fs "o.json" = true ∧
       fsGet (runOutput "o.json" "qq"
           [{ By := "b", ID := 3, Parent := 4, Text := "abc" }] []).fs "o.json" = none)) :=
  ⟨by decide,
   claim_c5_empty_result_no_encode "o.json" "qq"
     [{ By := "b", ID := 3, Parent := 4, Text := "abc" }] [] (by decide)⟩

/-- C6. Every comment a successful `fetchFromAPI` returns is an oracle
comment with its text HTML-unescaped; and in the spec scenario — thread
9996333 with kids 1001 and 1002, comment 1001 carrying wire text
"I &amp; you", keyword "you" — the filtered output is exactly one comment
whose text is "I & you", whichever way the two fetches complete. -/
theorem claim_c6_html_unescaped (order : List Nat)
    (horder : order.Perm (List.range 2)) :
    (∀ (apiThread : Int → Option hnThread) (apiComment : Int → Option hnComment)
        (tid : Int) (thread : hnThread) (msgs : List hnComment) (ord : List Nat)
        (cs : List hnComment),
        apiThread tid = some thread →
        fetchChildren apiComment thread.Kids = some msgs →
        ord.Perm (List.range msgs.length) →
        fetchFromAPI apiThread apiComment tid ord = some cs →
        ∀ c ∈ cs, ∃ id ∈ thread.Kids, ∃ raw, apiComment id = some raw ∧
          c = { raw with Text := htmlUnescapeStr raw.Text }) ∧
    filterComments (selectFilter "you")
        ((fetchFromAPI c6ApiThread c6ApiComment 9996333 order).getD [])
      = [{ By := "alice", ID := 1001, Parent := 9996333, Text := "I & you" }] := by
  constructor
  · intro apiThread apiComment tid thread msgs ord cs hth hch hord hfetch c hc
    have hcs : cs = fanIn msgs ord := by
      simp only [fetchFromAPI, hth, hch] at hfetch
      exact (Option.some.injEq _ _ ▸ hfetch).symm
    have hc2 : c ∈ msgs := (fanIn_perm msgs ord hord).mem_iff.mp (hcs ▸ hc)
    obtain ⟨k, hk, hR⟩ :=
      forall2_mem_right (fetchChildren_forall2 apiComment thread.Kids msgs hch) hc2
    rw [getComment] at hR
    obtain ⟨raw, hraw, heq⟩ := Option.map_eq_some'.mp hR
    exact ⟨k, hk, raw, hraw, heq.symm⟩
  · have hfetch : fetchFromAPI c6ApiThread c6ApiComment 9996333 order
        = some (fanIn c6Msgs order) := rfl
    rw [hfetch, Option.getD_some, filterComments_eq_filter]
    have hperm : (fanIn c6Msgs order).Perm c6Msgs :=
      fanIn_perm c6Msgs order horder
    have h2 := hperm.filter (fun c => selectFilter "you" c.Text)
    have h3 : List.filter (fun c => selectFilter "you" c.Text) c6Msgs
        = [{ By := "alice", ID := 1001, Parent := 9996333, Text := "I & you" }] := by
      decide
    rw [h3] at h2
    exact List.perm_singleton.mp h2

/-- C6, witness: the scenario at completion order `[0, 1]`. -/
theorem claim_c6_witness :
    ([0, 1].Perm (List.range 2)) ∧
    ((∀ (apiThread : Int → Option hnThread) (apiComment : Int → Option hnComment)
        (tid : Int) (thread : hnThread) (msgs : List hnComment) (ord : List Nat)
        (cs : List hnComment),
        apiThread tid = some thread →
        fetchChildren apiComment thread.Kids = some msgs →
        ord.Perm (List.range msgs.length) →
        fetchFromAPI apiThread apiComment tid ord = some cs →
        ∀ c ∈ cs, ∃ id ∈ thread.Kids, ∃ raw, apiComment id = some raw ∧
          c = { raw with Text := htmlUnescapeStr raw.Text }) ∧
     filterComments (selectFilter "you")
        ((fetchFromAPI c6ApiThread c6ApiComment 9996333 [0, 1]).getD [])
      = [{ By := "alice", ID := 1001, Parent := 9996333, Text := "I & you" }]) :=
  ⟨by decide, claim_c6_html_unescaped [0, 1] (by decide)⟩

/-- C7. With no keywords configured (`-keywords` empty) the selected filter
returns true on every text, so the filtering loop keeps every comment. -/
theorem claim_c7_no_keywords_accept_all (text : String) (comments : List hnComment) :
    selectFilter "" text = true ∧
    filterComments (selectFilter "") comments = comments := by
  refine ⟨rfl, ?_⟩
  rw [filterComments_eq_filter]
  show List.filter (fun _ => true) comments = comments
  simp

/-- C8. Cache round-trip: decoding (as `fetchFromFile` does) a cache file
holding the encoding of any comment list yields that list, field for
field. -/
theorem claim_c8_cache_round_trip (comments : List hnComment) :
    fetchFromFile (some (encodeComments comments)) = some comments := by
  show decodeComments (encodeComments comments) = some comments
  rw [encodeComments, decodeComments]
  exact decodeCommentList_encode comments

/-- C9. A keyword list containing the empty string (as `strings.Split`
produces from a leading, trailing or doubled space) accepts every text,
because containment of the empty substring always holds. -/
theorem claim_c9_empty_keyword_accepts_all (keywords : List String) (text : String)
    (h : "" ∈ keywords) :
    filterTextFromKeywords keywords text = true :=
  (filterTextFromKeywords_iff keywords text).mpr
    ⟨"", h, goContains_empty (goToLower text)⟩

/-- C9, witness: the doubled-space split `["a", "", "b"]` accepts a text
containing neither "a" nor "b". -/
theorem claim_c9_witness :
    ("" ∈ goSplitSpace "a  b") ∧
    filterTextFromKeywords (goSplitSpace "a  b") "zzz" = true :=
  ⟨by decide, claim_c9_empty_keyword_accepts_all (goSplitSpace "a  b") "zzz" (by decide)⟩

/-- C10. The filtering loop of `main` is an order-preserving subsequence:
for every predicate it returns exactly the comments whose text satisfies
the predicate, unchanged and in input order. -/
theorem claim_c10_filter_order_preserving (filter : String → Bool)
    (comments : List hnComment) :
    filterComments filter comments = comments.filter (fun c => filter c.Text) ∧
    List.Sublist (filterComments filter comments) comments := by
  refine ⟨filterComments_eq_filter filter comments, ?_⟩
  rw [filterComments_eq_filter]
  exact List.filter_sublist comments
